import Mathlib

/-!
Shallow embedding of the RAMP command-line pipeline orchestrator
(`src/main.rs`): region catalog, input resolver, artifact store paths,
RNG provider and stage dispatcher, together with theorems about the
properties the design documentation states for them.
-/

namespace Ramp

/-- Which counties to operate on (the closed region catalog of `main.rs`). -/
inductive Region where
  | WestYorkshireSmall
  | WestYorkshireLarge
  | Devon
  | TwoCounties
  | National
deriving DecidableEq, Repr

/-- The `Debug` rendering of a `Region`, as produced by `format!("{:?}", region)`. -/
def regionDebug : Region → String
  | Region.WestYorkshireSmall => "WestYorkshireSmall"
  | Region.WestYorkshireLarge => "WestYorkshireLarge"
  | Region.Devon => "Devon"
  | Region.TwoCounties => "TwoCounties"
  | Region.National => "National"

/-- An MSOA area code.  In the library it is a validated newtype over a string;
for the orchestration layer it is an opaque ordered key. -/
abbrev MSOA := String

/-- Lexicographic order on character lists, by code point: the total order
`Ord` that `BTreeMap<String, _>` sorts its keys by. -/
def charListLt : List Char → List Char → Bool
  | [], [] => false
  | [], _ :: _ => true
  | _ :: _, [] => false
  | a :: as, b :: bs =>
    if a.toNat < b.toNat then true
    else if a.toNat = b.toNat then charListLt as bs
    else false

/-- The key order of the `BTreeMap`, lifted to area codes. -/
def msoaLt (a b : MSOA) : Bool := charListLt a.data b.data

/-- A `BTreeMap<MSOA, usize>` modelled as a key-sorted association list.
`btreeInsert` is `BTreeMap::insert`: it keeps the list sorted by key and
replaces the stored value when the key is already present. -/
def btreeInsert : List (MSOA × Nat) → MSOA → Nat → List (MSOA × Nat)
  | [], k, v => [(k, v)]
  | (k', v') :: rest, k, v =>
    if msoaLt k k' then (k, v) :: (k', v') :: rest
    else if k = k' then (k, v) :: rest
    else (k', v') :: btreeInsert rest k v

/-- `BTreeMap::get`, up to the ordering (membership search on the list). -/
def btreeFind : List (MSOA × Nat) → MSOA → Option Nat
  | [], _ => none
  | (k', v') :: rest, k => if k = k' then some v' else btreeFind rest k

/-- `ramp::Input`: the initial conditions handed to the population synthesizer. -/
structure Input where
  initial_cases_per_msoa : List (MSOA × Nat)
deriving DecidableEq

/-- Modelled from the spec: a raw table row as the CSV deserializer sees it.
`msoa` is the value of the required `MSOA11CD` column (`none` when the field
is missing from the record) and `cases` is the raw text of the optional
case-count column (`none` when the field is absent, triggering the serde
default). -/
structure RawRow where
  msoa : Option String
  cases : Option String
deriving DecidableEq

/-- `InitialCaseRow` of `main.rs`: the deserialized shape of one table row. -/
structure InitialCaseRow where
  msoa : MSOA
  cases : Nat
deriving DecidableEq

/-- `default_cases` of `main.rs`: the serde default for a missing count field. -/
def default_cases : Nat := 5

/-- Modelled from the spec: the error taxonomy of the design documentation
(`SourceUnavailable`, `MalformedInputRow`, `ArtifactMissing`,
`ArtifactCorrupt`, `WriteFailure`); the reference code surfaces all of these
as opaque propagated errors.  `CollaboratorFailure` covers a failing external
collaborator (synthesizer, transform or model). -/
inductive Err where
  | SourceUnavailable
  | MalformedInputRow
  | ArtifactMissing
  | ArtifactCorrupt
  | WriteFailure
  | CollaboratorFailure
deriving DecidableEq

/-- A run of decimal digits folded into a value, `none` at the first
non-digit character. -/
def digitsVal : List Char → Nat → Option Nat
  | [], acc => some acc
  | c :: cs, acc =>
    if 48 ≤ c.toNat ∧ c.toNat ≤ 57 then digitsVal cs (acc * 10 + (c.toNat - 48))
    else none

/-- Modelled from the spec: deserializing the count cell as a `usize` — a
non-empty all-digit string succeeds, anything else is a malformed row. -/
def parseUsize (s : String) : Option Nat :=
  match s.data with
  | [] => none
  | c :: cs => digitsVal (c :: cs) 0

/-- Deserialize one raw row into an `InitialCaseRow`: the `MSOA11CD` field is
required, the count field falls back to `default_cases` when absent and must
parse as an unsigned integer when present. -/
def parseRow (r : RawRow) : Except Err InitialCaseRow :=
  match r.msoa with
  | none => Except.error Err.MalformedInputRow
  | some m =>
    match r.cases with
    | none => Except.ok ⟨m, default_cases⟩
    | some s =>
      match parseUsize s with
      | none => Except.error Err.MalformedInputRow
      | some n => Except.ok ⟨m, n⟩

/-- The row loop of `Region::to_input`: deserialize each record and insert
`(rec.msoa, rec.cases)` into the accumulating map, stopping at the first
record that fails to deserialize. -/
def readRows : List RawRow → List (MSOA × Nat) → Except Err (List (MSOA × Nat))
  | [], acc => Except.ok acc
  | r :: rest, acc =>
    match parseRow r with
    | Except.error e => Except.error e
    | Except.ok rec => readRows rest (btreeInsert acc rec.msoa rec.cases)

/-- Modelled from the spec: `StdRng`, the external random number generator.
Seeding is the only operation this layer performs on it, so the state is
abstracted to the seed material it was constructed from. -/
structure StdRng where
  state : Nat
deriving DecidableEq

/-- `StdRng::seed_from_u64`: a pure function of the 64-bit seed. -/
def seed_from_u64 (seed : Nat) : StdRng := ⟨seed % 2 ^ 64⟩

/-- Modelled from the spec: `StdRng::from_entropy` draws the state from a
non-reproducible entropy source, supplied here as an explicit value. -/
def from_entropy (entropy : Nat) : StdRng := ⟨entropy⟩

/-- Modelled from the spec: `ramp::Population`, the opaque synthesized
population artifact produced by the external synthesizer. -/
structure Population where
  val : Nat
deriving DecidableEq

/-- Modelled from the spec: one file of the artifact store, either absent,
present but undecodable, or a decodable serialized population. -/
inductive StoredFile where
  | absent
  | corrupt
  | population (p : Population)
deriving DecidableEq

/-- The content of a file written by one invocation: the serialized
population binary, a Python cache directory, or a snapshot file (the two
transform outputs are opaque and stand in for whatever bytes the external
collaborator produced). -/
inductive FileData where
  | binPop (p : Population)
  | pythonCache (content : Nat)
  | snapshotNpz (content : Nat)
deriving DecidableEq

/-- Modelled from the spec: the ambient world of one invocation — the
filesystem holding the bundled tables and the artifact store, the national
MSOA directory collaborator, and the external collaborators (population
synthesizer, cache transform, snapshot transform, simulation model), each a
pure function that may fail. -/
structure World where
  files : String → Option (List RawRow)
  msoas_nationally : Option (List MSOA)
  store : String → StoredFile
  writable : Bool
  create : Input → StdRng → Option Population
  write_python_cache : Population → Option Nat
  convert_to_npz : Population → StdRng → Option Nat
  run_model : Population → StdRng → Option Unit

/-- The static region-to-table lookup inside `Region::to_input`
(`None` for the whole-country region, which reads no table). -/
def csvFileName : Region → Option String
  | Region.WestYorkshireSmall => some ("Input_Test_3.csv")
  | Region.WestYorkshireLarge => some ("Input_WestYorkshire.csv")
  | Region.Devon => some ("Input_Devon.csv")
  | Region.TwoCounties => some ("Input_Test_accross.csv")
  | Region.National => none

/-- The shared tail of `Region::to_input` for bundled-table regions: open
`model_parameters/<csv_input>` and fold the deserialized rows into the map. -/
def readCsv (w : World) (csv_input : String) : Except Err Input :=
  match w.files (("model_parameters/") ++ csv_input) with
  | none => Except.error Err.SourceUnavailable
  | some rows =>
    match readRows rows [] with
    | Except.error e => Except.error e
    | Except.ok m => Except.ok ⟨m⟩

/-- `Region::to_input`: build the initial conditions for a region, either
from its bundled table or, nationally, by enumerating every MSOA from the
directory collaborator and inserting each with the default count. -/
def Region.to_input (self : Region) (w : World) : Except Err Input :=
  match self with
  | Region.National =>
    match w.msoas_nationally with
    | none => Except.error Err.SourceUnavailable
    | some msoas =>
      Except.ok ⟨msoas.foldl (fun acc msoa => btreeInsert acc msoa default_cases) []⟩
  | Region.WestYorkshireSmall => readCsv w ("Input_Test_3.csv")
  | Region.WestYorkshireLarge => readCsv w ("Input_WestYorkshire.csv")
  | Region.Devon => readCsv w ("Input_Devon.csv")
  | Region.TwoCounties => readCsv w ("Input_Test_accross.csv")

/-- The population-artifact path written by `Init` (`main.rs` line 46). -/
def initOutputPath (region : Region) : String :=
  ("processed_data/") ++ regionDebug region ++ (".bin")

/-- The population-artifact path read by `PythonCache` (`main.rs` line 53). -/
def pythonCacheReadPath (region : Region) : String :=
  ("processed_data/") ++ regionDebug region ++ (".bin")

/-- The population-artifact path read by `Snapshot` (`main.rs` line 61). -/
def snapshotReadPath (region : Region) : String :=
  ("processed_data/") ++ regionDebug region ++ (".bin")

/-- The population-artifact path read by `RunModel` (`main.rs` line 70). -/
def runModelReadPath (region : Region) : String :=
  ("processed_data/") ++ regionDebug region ++ (".bin")

/-- Modelled from the spec: `utilities::read_binary::<Population>` — load and
deserialize an artifact, failing when the file is missing or undecodable. -/
def read_binary (w : World) (path : String) : Except Err Population :=
  match w.store path with
  | StoredFile.absent => Except.error Err.ArtifactMissing
  | StoredFile.corrupt => Except.error Err.ArtifactCorrupt
  | StoredFile.population p => Except.ok p

/-- The CLI action (subcommand) of one invocation. -/
inductive Action where
  | Init (region : Region)
  | PythonCache (region : Region)
  | Snapshot (region : Region)
  | RunModel (region : Region)

/-- The parsed command line: one action plus the optional `--rng-seed`. -/
structure Args where
  action : Action
  rng_seed : Option Nat

/-- The RNG provider at the top of `main`: seed deterministically when
`--rng-seed` was given, otherwise from the entropy source. -/
def mkRng (rng_seed : Option Nat) (entropy : Nat) : StdRng :=
  match rng_seed with
  | some seed => seed_from_u64 seed
  | none => from_entropy entropy

/-- The `match args.action` dispatcher of `main`: run exactly one stage with
the already-constructed RNG, returning the stage result together with the
list of files the invocation wrote. -/
def dispatchAction (w : World) (action : Action) (rng : StdRng) :
    Except Err Unit × List (String × FileData) :=
  match action with
  | Action.Init region =>
    match region.to_input w with
    | Except.error e => (Except.error e, [])
    | Except.ok input =>
      match w.create input rng with
      | none => (Except.error Err.CollaboratorFailure, [])
      | some population =>
        if w.writable then
          (Except.ok (), [(initOutputPath region, FileData.binPop population)])
        else (Except.error Err.WriteFailure, [])
  | Action.PythonCache region =>
    match read_binary w (pythonCacheReadPath region) with
    | Except.error e => (Except.error e, [])
    | Except.ok population =>
      match w.write_python_cache population with
      | none => (Except.error Err.WriteFailure, [])
      | some content =>
        (Except.ok (),
          [(("processed_data/python_cache_") ++ regionDebug region,
            FileData.pythonCache content)])
  | Action.Snapshot region =>
    match read_binary w (snapshotReadPath region) with
    | Except.error e => (Except.error e, [])
    | Except.ok population =>
      match w.convert_to_npz population rng with
      | none => (Except.error Err.WriteFailure, [])
      | some content =>
        (Except.ok (),
          [(("processed_data/snapshot_") ++ regionDebug region ++ (".npz"),
            FileData.snapshotNpz content)])
  | Action.RunModel region =>
    match read_binary w (runModelReadPath region) with
    | Except.error e => (Except.error e, [])
    | Except.ok population =>
      match w.run_model population rng with
      | none => (Except.error Err.CollaboratorFailure, [])
      | some _ => (Except.ok (), [])

/-- `main`: construct the RNG once from the optional seed (or the ambient
entropy), then dispatch the single requested action. -/
def runMain (w : World) (entropy : Nat) (args : Args) :
    Except Err Unit × List (String × FileData) :=
  dispatchAction w args.action (mkRng args.rng_seed entropy)

/-- The value one deserialized table row contributes to the map: the parsed
count when the cell is present, the serde default when it is absent, nothing
when the row is malformed. -/
def rowValue (r : RawRow) : Option Nat :=
  match r.cases with
  | none => some default_cases
  | some s => parseUsize s

/-- The count the resolver's row loop leaves associated with area `m`: the
contribution of the last table row naming `m` (later rows shadow earlier
ones through map insertion). -/
def specFind : List RawRow → MSOA → Option Nat
  | [], _ => none
  | r :: rest, m =>
    match specFind rest m with
    | some v => some v
    | none => if r.msoa = some m then rowValue r else none

/-- A map whose entries are strictly increasing in the key order — the
representation invariant of the `BTreeMap` model. -/
abbrev sortedMap (m : List (MSOA × Nat)) : Prop :=
  m.Pairwise (fun a b => msoaLt a.1 b.1 = true)

/-- A concrete world for witnesses: no bundled tables, no national
enumeration, an empty artifact store, a writable destination, and total
collaborators. -/
def wBase : World where
  files := fun _ => none
  msoas_nationally := none
  store := fun _ => StoredFile.absent
  writable := true
  create := fun input rng => some ⟨input.initial_cases_per_msoa.length + rng.state⟩
  write_python_cache := fun p => some p.val
  convert_to_npz := fun p rng => some (p.val + rng.state)
  run_model := fun _ _ => some ()

/-- The scenario table of the design documentation: one row with an explicit
count of 5, one row with the count field absent. -/
def rowsScenario : List RawRow :=
  [⟨some ("E02000001"), some ("5")⟩, ⟨some ("E02000002"), none⟩]

/-- A world whose bundled table for `WestYorkshireSmall` is the scenario table. -/
def wScenario : World :=
  { wBase with
    files := fun p =>
      if p = ("model_parameters/Input_Test_3.csv") then some rowsScenario else none }

/-- The initial conditions the scenario table resolves to. -/
def inputScenario : Input :=
  ⟨[(("E02000001" : String), 5), (("E02000002" : String), 5)]⟩

/-- A bundled table with two rows for the same area code. -/
def rowsDup : List RawRow :=
  [⟨some ("E02000001"), some ("1")⟩, ⟨some ("E02000001"), some ("2")⟩]

/-- A world whose bundled table for `WestYorkshireSmall` has duplicate rows. -/
def wDup : World :=
  { wBase with
    files := fun p =>
      if p = ("model_parameters/Input_Test_3.csv") then some rowsDup else none }

/-- The initial conditions the duplicate-row table resolves to. -/
def inputDup : Input := ⟨[(("E02000001" : String), 2)]⟩

/-- A bundled table with a non-numeric count cell. -/
def rowsBad : List RawRow := [⟨some ("E02000001"), some ("abc")⟩]

/-- A world whose bundled table for `Devon` has a malformed row. -/
def wBad : World :=
  { wBase with
    files := fun p =>
      if p = ("model_parameters/Input_Devon.csv") then some rowsBad else none }

/-- A world whose national enumeration returns two area codes. -/
def wNat : World :=
  { wBase with
    msoas_nationally := some [("E02000001" : String), ("E02000002" : String)] }

theorem charToNat_inj {a b : Char} (h : a.toNat = b.toNat) : a = b := by
  have hv : a.val = b.val := UInt32.toNat.inj h
  exact Char.eq_of_val_eq hv

theorem charListLt_irrefl : ∀ l, charListLt l l = false := by
  intro l
  induction l with
  | nil => rfl
  | cons c cs ih => simp [charListLt, ih]

theorem charListLt_trans :
    ∀ (a b c : List Char), charListLt a b = true → charListLt b c = true →
      charListLt a c = true := by
  intro a
  induction a with
  | nil =>
    intro b c h1 h2
    cases b with
    | nil => simp [charListLt] at h1
    | cons q qs =>
      cases c with
      | nil => simp [charListLt] at h2
      | cons r rs => simp [charListLt]
  | cons p ps ih =>
    intro b c h1 h2
    cases b with
    | nil => simp [charListLt] at h1
    | cons q qs =>
      cases c with
      | nil => simp [charListLt] at h2
      | cons r rs =>
        simp only [charListLt] at h1 h2 ⊢
        by_cases hpq : p.toNat < q.toNat
        · by_cases hqr : q.toNat < r.toNat
          · rw [if_pos (show p.toNat < r.toNat by omega)]
          · by_cases hqr2 : q.toNat = r.toNat
            · rw [if_pos (show p.toNat < r.toNat by omega)]
            · rw [if_neg hqr, if_neg hqr2] at h2
              exact absurd h2 (by simp)
        · by_cases hpq2 : p.toNat = q.toNat
          · rw [if_neg hpq, if_pos hpq2] at h1
            by_cases hqr : q.toNat < r.toNat
            · rw [if_pos (show p.toNat < r.toNat by omega)]
            · by_cases hqr2 : q.toNat = r.toNat
              · rw [if_neg hqr, if_pos hqr2] at h2
                rw [if_neg (show ¬ p.toNat < r.toNat by omega),
                  if_pos (show p.toNat = r.toNat by omega)]
                exact ih qs rs h1 h2
              · rw [if_neg hqr, if_neg hqr2] at h2
                exact absurd h2 (by simp)
          · rw [if_neg hpq, if_neg hpq2] at h1
            exact absurd h1 (by simp)

theorem charListLt_of_not_of_ne :
    ∀ (a b : List Char), charListLt a b = false → a ≠ b → charListLt b a = true := by
  intro a
  induction a with
  | nil =>
    intro b h1 hne
    cases b with
    | nil => exact absurd rfl hne
    | cons q qs => simp [charListLt] at h1
  | cons p ps ih =>
    intro b h1 hne
    cases b with
    | nil => simp [charListLt]
    | cons q qs =>
      simp only [charListLt] at h1 ⊢
      by_cases hpq : p.toNat < q.toNat
      · simp [hpq] at h1
      · by_cases hpq2 : p.toNat = q.toNat
        · have hq : p = q := charToNat_inj hpq2
          subst hq
          simp only [hpq, if_false, ite_true] at h1
          have hne2 : ps ≠ qs := by
            intro hh
            exact hne (by rw [hh])
          simp only [Nat.lt_irrefl, if_false, ite_true]
          exact ih qs h1 hne2
        · have : q.toNat < p.toNat := by omega
          simp [this]

theorem msoaLt_irrefl (a : MSOA) : msoaLt a a = false := charListLt_irrefl a.data

theorem msoaLt_trans {a b c : MSOA} (h1 : msoaLt a b = true) (h2 : msoaLt b c = true) :
    msoaLt a c = true := charListLt_trans a.data b.data c.data h1 h2

theorem msoaLt_of_not_of_ne {a b : MSOA} (h : msoaLt a b = false) (hne : a ≠ b) :
    msoaLt b a = true :=
  charListLt_of_not_of_ne a.data b.data h (fun hd => hne (String.ext hd))

theorem mem_btreeInsert :
    ∀ (m : List (MSOA × Nat)) (k : MSOA) (v : Nat) (x : MSOA × Nat),
      x ∈ btreeInsert m k v → x ∈ m ∨ x = (k, v) := by
  intro m k v
  induction m with
  | nil =>
    intro x hx
    simp [btreeInsert] at hx
    right
    exact hx
  | cons hd tl ih =>
    intro x hx
    obtain ⟨k', v'⟩ := hd
    simp only [btreeInsert] at hx
    split_ifs at hx with h1 h2
    · rcases List.mem_cons.mp hx with rfl | hx2
      · right; rfl
      · left; exact hx2
    · rcases List.mem_cons.mp hx with rfl | hx2
      · right; rfl
      · left; exact List.mem_cons_of_mem _ hx2
    · rcases List.mem_cons.mp hx with rfl | hx2
      · left; exact List.mem_cons_self _ _
      · rcases ih x hx2 with hin | rfl
        · left; exact List.mem_cons_of_mem _ hin
        · right; rfl

theorem btreeInsert_sorted :
    ∀ (m : List (MSOA × Nat)) (k : MSOA) (v : Nat),
      sortedMap m → sortedMap (btreeInsert m k v) := by
  intro m k v
  induction m with
  | nil =>
    intro _
    simp [btreeInsert, sortedMap]
  | cons hd tl ih =>
    intro h
    obtain ⟨k', v'⟩ := hd
    rw [sortedMap, List.pairwise_cons] at h
    obtain ⟨hhead, htl⟩ := h
    simp only [btreeInsert]
    split_ifs with h1 h2
    · rw [sortedMap, List.pairwise_cons]
      refine ⟨?_, ?_⟩
      · intro x hx
        rcases List.mem_cons.mp hx with rfl | hx2
        · exact h1
        · exact msoaLt_trans h1 (hhead x hx2)
      · rw [List.pairwise_cons]
        exact ⟨hhead, htl⟩
    · rw [sortedMap, List.pairwise_cons]
      subst h2
      exact ⟨hhead, htl⟩
    · rw [sortedMap, List.pairwise_cons]
      refine ⟨?_, ih htl⟩
      intro x hx
      rcases mem_btreeInsert tl k v x hx with hin | rfl
      · exact hhead x hin
      · have h1f : msoaLt k k' = false := by
          cases hb : msoaLt k k'
          · rfl
          · exact absurd hb h1
        exact msoaLt_of_not_of_ne h1f h2

theorem btreeFind_insert :
    ∀ (m : List (MSOA × Nat)) (k : MSOA) (v : Nat) (j : MSOA),
      btreeFind (btreeInsert m k v) j = if j = k then some v else btreeFind m j := by
  intro m k v
  induction m with
  | nil =>
    intro j
    simp [btreeInsert, btreeFind]
  | cons hd tl ih =>
    intro j
    obtain ⟨k', v'⟩ := hd
    by_cases h1 : msoaLt k k'
    · rw [show btreeInsert ((k', v') :: tl) k v = (k, v) :: (k', v') :: tl from by
        simp [btreeInsert, h1]]
      by_cases hj : j = k <;> simp [btreeFind, hj]
    · by_cases h2 : k = k'
      · rw [show btreeInsert ((k', v') :: tl) k v = (k, v) :: tl from by
          simp [btreeInsert, h1, h2, msoaLt_irrefl]]
        subst h2
        by_cases hj : j = k <;> simp [btreeFind, hj]
      · rw [show btreeInsert ((k', v') :: tl) k v = (k', v') :: btreeInsert tl k v from by
          simp [btreeInsert, h1, h2]]
        by_cases hj : j = k'
        · subst hj
          have hjk : ¬ j = k := fun hh => h2 hh.symm
          simp [btreeFind, hjk]
        · by_cases hjk : j = k <;> simp [btreeFind, hj, hjk, h2, ih]

theorem natFold_find :
    ∀ (l : List MSOA) (acc : List (MSOA × Nat)) (m : MSOA),
      btreeFind (l.foldl (fun a x => btreeInsert a x default_cases) acc) m =
        if m ∈ l then some default_cases else btreeFind acc m := by
  intro l
  induction l with
  | nil =>
    intro acc m
    simp
  | cons x xs ih =>
    intro acc m
    simp only [List.foldl_cons]
    rw [ih]
    by_cases hm : m ∈ xs
    · simp [hm]
    · by_cases hx : m = x
      · simp [hm, hx, btreeFind_insert]
      · simp [hm, hx, btreeFind_insert]

theorem parseRow_ok {r : RawRow} {rec : InitialCaseRow} (h : parseRow r = Except.ok rec) :
    r.msoa = some rec.msoa ∧ rowValue r = some rec.cases := by
  obtain ⟨mo, co⟩ := r
  cases mo with
  | none => simp [parseRow] at h
  | some m =>
    cases co with
    | none =>
      simp only [parseRow, Except.ok.injEq] at h
      subst h
      simp [rowValue]
    | some s =>
      cases hp : parseUsize s with
      | none => simp [parseRow, hp] at h
      | some n =>
        simp only [parseRow, hp, Except.ok.injEq] at h
        subst h
        simp [rowValue, hp]

theorem parseRow_error {r : RawRow} {e : Err} (h : parseRow r = Except.error e) :
    e = Err.MalformedInputRow := by
  obtain ⟨mo, co⟩ := r
  cases mo with
  | none =>
    simp only [parseRow, Except.error.injEq] at h
    exact h.symm
  | some m =>
    cases co with
    | none => simp [parseRow] at h
    | some s =>
      cases hp : parseUsize s with
      | none =>
        simp only [parseRow, hp, Except.error.injEq] at h
        exact h.symm
      | some n => simp [parseRow, hp] at h

theorem parseRow_of_bad {r : RawRow}
    (h : r.msoa = none ∨ ∃ s, r.cases = some s ∧ parseUsize s = none) :
    parseRow r = Except.error Err.MalformedInputRow := by
  obtain ⟨mo, co⟩ := r
  rcases h with hm | ⟨s, hs, hp⟩
  · simp only at hm
    subst hm
    rfl
  · simp only at hs
    subst hs
    cases mo with
    | none => rfl
    | some m => simp [parseRow, hp]

theorem specFind_eq_none :
    ∀ (rows : List RawRow) (m : MSOA), (∀ r ∈ rows, r.msoa ≠ some m) →
      specFind rows m = none := by
  intro rows m
  induction rows with
  | nil => intro _; rfl
  | cons x rest ih =>
    intro h
    have hrest : specFind rest m = none := ih (fun r hr => h r (List.mem_cons_of_mem _ hr))
    have hx : x.msoa ≠ some m := h x (List.mem_cons_self _ _)
    simp [specFind, hrest, hx]

theorem specFind_of_pairwise :
    ∀ (rows : List RawRow) (r : RawRow) (m : MSOA),
      rows.Pairwise (fun a b => a.msoa ≠ b.msoa) → r ∈ rows → r.msoa = some m →
      specFind rows m = rowValue r := by
  intro rows
  induction rows with
  | nil =>
    intro r m _ hr
    exact absurd hr (List.not_mem_nil r)
  | cons x rest ih =>
    intro r m hpw hr hm
    rw [List.pairwise_cons] at hpw
    obtain ⟨hx, hrest⟩ := hpw
    rcases List.mem_cons.mp hr with rfl | hr2
    · have hnone : specFind rest m = none := by
        apply specFind_eq_none
        intro b hb
        rw [← hm]
        exact fun hh => hx b hb hh.symm
      simp [specFind, hnone, hm]
    · have hfound : specFind rest m = rowValue r := ih r m hrest hr2 hm
      cases hv : rowValue r with
      | some v => simp [specFind, hfound, hv]
      | none =>
        have hxm : x.msoa ≠ some m := by
          rw [← hm]
          exact hx r hr2
        simp [specFind, hfound, hv, hxm]

theorem readRows_ok_find :
    ∀ (rows : List RawRow) (acc mp : List (MSOA × Nat)),
      readRows rows acc = Except.ok mp → ∀ m,
      btreeFind mp m = (specFind rows m).or (btreeFind acc m) := by
  intro rows
  induction rows with
  | nil =>
    intro acc mp h m
    simp only [readRows, Except.ok.injEq] at h
    subst h
    simp [specFind, Option.or]
  | cons r rest ih =>
    intro acc mp h m
    cases hp : parseRow r with
    | error e => simp [readRows, hp] at h
    | ok rec =>
      simp only [readRows, hp] at h
      have hmain := ih (btreeInsert acc rec.msoa rec.cases) mp h m
      obtain ⟨hmsoa, hval⟩ := parseRow_ok hp
      cases hs : specFind rest m with
      | some v => simp [specFind, hs, Option.or, hmain]
      | none =>
        rw [hmain, hs]
        by_cases hm : m = rec.msoa
        · subst hm
          simp [Option.or, btreeFind_insert, specFind, hs, hmsoa, hval]
        · have hne : r.msoa ≠ some m := by
            rw [hmsoa]
            exact fun hh => hm (Option.some.inj hh).symm
          simp [Option.or, btreeFind_insert, specFind, hs, hne, hm]

theorem readRows_ok_sorted :
    ∀ (rows : List RawRow) (acc mp : List (MSOA × Nat)),
      sortedMap acc → readRows rows acc = Except.ok mp → sortedMap mp := by
  intro rows
  induction rows with
  | nil =>
    intro acc mp hacc h
    simp only [readRows, Except.ok.injEq] at h
    subst h
    exact hacc
  | cons r rest ih =>
    intro acc mp hacc h
    cases hp : parseRow r with
    | error e => simp [readRows, hp] at h
    | ok rec =>
      simp only [readRows, hp] at h
      exact ih _ mp (btreeInsert_sorted acc rec.msoa rec.cases hacc) h

theorem readRows_error_of_mem :
    ∀ (rows : List RawRow) (acc : List (MSOA × Nat)) (r : RawRow), r ∈ rows →
      parseRow r = Except.error Err.MalformedInputRow →
      readRows rows acc = Except.error Err.MalformedInputRow := by
  intro rows
  induction rows with
  | nil =>
    intro acc r hr
    exact absurd hr (List.not_mem_nil r)
  | cons x rest ih =>
    intro acc r hr hbad
    cases hp : parseRow x with
    | error e =>
      have : e = Err.MalformedInputRow := parseRow_error hp
      subst this
      simp [readRows, hp]
    | ok rec =>
      rcases List.mem_cons.mp hr with rfl | hr2
      · rw [hp] at hbad
        cases hbad
      · simp only [readRows, hp]
        exact ih _ r hr2 hbad

theorem to_input_eq_readCsv {region : Region} {name : String}
    (h : csvFileName region = some name) (w : World) :
    region.to_input w = readCsv w name := by
  cases region <;>
    first
      | (simp only [csvFileName, Option.some.injEq] at h; subst h; rfl)
      | simp [csvFileName] at h

theorem readCsv_ok_rows {w : World} {name : String} {rows : List RawRow} {input : Input}
    (hfile : w.files (("model_parameters/") ++ name) = some rows)
    (hok : readCsv w name = Except.ok input) :
    readRows rows [] = Except.ok input.initial_cases_per_msoa := by
  simp only [readCsv, hfile] at hok
  cases hr : readRows rows [] with
  | error e =>
    simp only [hr] at hok
    cases hok
  | ok m =>
    simp only [hr, Except.ok.injEq] at hok
    subst hok
    rfl

/-- Claim C1: for every seed `s` and region, an `Init` run with
`--rng-seed s` is a pure function of the seed and the source tables: two
invocations against the same world produce identical results and write
byte-identical population artifacts, whatever ambient entropy either
process saw. -/
theorem init_deterministic_given_seed
    (w : World) (e1 e2 : Nat) (region : Region) (s : Nat) :
    runMain w e1 ⟨Action.Init region, some s⟩ =
      runMain w e2 ⟨Action.Init region, some s⟩ := rfl

/-- Claim C2: for a bundled-table region, a row whose case-count field is
absent is mapped to the fixed default count 5, and a row whose count is
present and parses as `n` is mapped to `n` (never the default) — per
missing field, for any row of the table not shadowed by a duplicate. -/
theorem default_count_per_missing_field
    (w : World) (region : Region) (name : String) (rows : List RawRow) (input : Input)
    (hname : csvFileName region = some name)
    (hfile : w.files (("model_parameters/") ++ name) = some rows)
    (hok : region.to_input w = Except.ok input)
    (hnodup : rows.Pairwise (fun a b => a.msoa ≠ b.msoa))
    (r : RawRow) (hr : r ∈ rows) (m : MSOA) (hm : r.msoa = some m) :
    (r.cases = none → btreeFind input.initial_cases_per_msoa m = some 5) ∧
    (∀ s n, r.cases = some s → parseUsize s = some n →
      btreeFind input.initial_cases_per_msoa m = some n) := by
  have hok2 : readCsv w name = Except.ok input := by
    rw [← to_input_eq_readCsv hname w]
    exact hok
  have hrr := readCsv_ok_rows hfile hok2
  have hfind := readRows_ok_find rows [] input.initial_cases_per_msoa hrr m
  have hspec := specFind_of_pairwise rows r m hnodup hr hm
  constructor
  · intro hc
    rw [hfind, hspec]
    simp [rowValue, hc, btreeFind, Option.or, default_cases]
  · intro s n hc hp
    rw [hfind, hspec]
    simp [rowValue, hc, hp, Option.or]

/-- Claim C2 witness: the documented scenario table resolves both areas to
count 5 — the first from its explicit cell, the second from the default. -/
theorem default_count_per_missing_field_witness :
    btreeFind inputScenario.initial_cases_per_msoa ("E02000002") = some 5 ∧
    btreeFind inputScenario.initial_cases_per_msoa ("E02000001") = some 5 :=
  ⟨(default_count_per_missing_field wScenario Region.WestYorkshireSmall
      ("Input_Test_3.csv") rowsScenario inputScenario rfl rfl rfl
      (by simp [rowsScenario]) ⟨some ("E02000002"), none⟩ (by simp [rowsScenario])
      ("E02000002") rfl).1 rfl,
   (default_count_per_missing_field wScenario Region.WestYorkshireSmall
      ("Input_Test_3.csv") rowsScenario inputScenario rfl rfl rfl
      (by simp [rowsScenario]) ⟨some ("E02000001"), some ("5")⟩ (by simp [rowsScenario])
      ("E02000001") rfl).2 ("5") 5 rfl rfl⟩

/-- Claim C3 counterexample: on a table holding two rows for the same area
the resolver does not fail: it returns initial conditions in which the
second row's count has silently overwritten the first row's. -/
theorem duplicate_rows_counterexample :
    Region.WestYorkshireSmall.to_input wDup = Except.ok inputDup := rfl

/-- Claim C3 (amended): duplicate rows are not a fatal error; insertion
order makes the last row win. Every area still appears at most once in the
resulting map (its key list is duplicate-free), and the count stored for an
area is exactly the contribution of the last table row naming it. -/
theorem duplicate_rows_overwrite
    (w : World) (region : Region) (name : String) (rows : List RawRow) (input : Input)
    (hname : csvFileName region = some name)
    (hfile : w.files (("model_parameters/") ++ name) = some rows)
    (hok : region.to_input w = Except.ok input) :
    (input.initial_cases_per_msoa.map Prod.fst).Nodup ∧
    ∀ m, btreeFind input.initial_cases_per_msoa m = specFind rows m := by
  have hok2 : readCsv w name = Except.ok input := by
    rw [← to_input_eq_readCsv hname w]
    exact hok
  have hrr := readCsv_ok_rows hfile hok2
  constructor
  · have hsorted := readRows_ok_sorted rows [] _ (by simp [sortedMap]) hrr
    rw [List.Nodup, List.pairwise_map]
    refine hsorted.imp ?_
    intro a b hab heq
    rw [heq, msoaLt_irrefl] at hab
    simp at hab
  · intro m
    rw [readRows_ok_find rows [] _ hrr m]
    cases hs : specFind rows m <;> simp [Option.or, btreeFind]

/-- Claim C3 amended-claim witness: on the duplicate-row table the key list
is duplicate-free and every area maps to its last row's count. -/
theorem duplicate_rows_overwrite_witness :
    (inputDup.initial_cases_per_msoa.map Prod.fst).Nodup ∧
    ∀ m, btreeFind inputDup.initial_cases_per_msoa m = specFind rowsDup m :=
  duplicate_rows_overwrite wDup Region.WestYorkshireSmall ("Input_Test_3.csv")
    rowsDup inputDup rfl rfl rfl

/-- Claim C4: for the whole-country region no table is read; every area code
the national enumeration returns appears in the initial conditions with
count exactly 5, and no other key appears. -/
theorem national_every_msoa_default
    (w : World) (l : List MSOA) (h : w.msoas_nationally = some l) :
    ∃ input, Region.National.to_input w = Except.ok input ∧
      ∀ m, btreeFind input.initial_cases_per_msoa m =
        if m ∈ l then some 5 else none := by
  refine ⟨⟨l.foldl (fun acc msoa => btreeInsert acc msoa default_cases) []⟩, ?_, ?_⟩
  · simp [Region.to_input, h]
  · intro m
    rw [natFold_find]
    simp [btreeFind, default_cases]

/-- Claim C4 witness: a national enumeration of two area codes yields a map
holding exactly those two keys, each with count 5. -/
theorem national_every_msoa_default_witness :
    ∃ input, Region.National.to_input wNat = Except.ok input ∧
      ∀ m, btreeFind input.initial_cases_per_msoa m =
        if m ∈ [("E02000001" : String), ("E02000002" : String)] then some 5 else none :=
  national_every_msoa_default wNat [("E02000001" : String), ("E02000002" : String)] rfl

/-- Claim C5: the population-artifact path is a pure function of the region
alone: the path `Init` writes is `processed_data/<region>.bin` and is the
same path `PythonCache`, `Snapshot` and `RunModel` read. -/
theorem artifact_path_pure_function (region : Region) :
    initOutputPath region = ("processed_data/") ++ regionDebug region ++ (".bin") ∧
    pythonCacheReadPath region = initOutputPath region ∧
    snapshotReadPath region = initOutputPath region ∧
    runModelReadPath region = initOutputPath region :=
  ⟨rfl, rfl, rfl, rfl⟩

/-- Claim C6: invoking `PythonCache` while the region's population artifact
is absent fails with `ArtifactMissing` and writes nothing — no file output
and no attempt to regenerate the prerequisite. -/
theorem python_cache_missing_artifact
    (w : World) (entropy : Nat) (seed : Option Nat) (region : Region)
    (h : w.store (pythonCacheReadPath region) = StoredFile.absent) :
    runMain w entropy ⟨Action.PythonCache region, seed⟩ =
      (Except.error Err.ArtifactMissing, []) := by
  simp [runMain, dispatchAction, read_binary, h]

/-- Claim C6 witness: `python-cache devon` against an empty artifact store
fails with `ArtifactMissing` and writes nothing. -/
theorem python_cache_missing_artifact_witness :
    runMain wBase 0 ⟨Action.PythonCache Region.Devon, none⟩ =
      (Except.error Err.ArtifactMissing, []) :=
  python_cache_missing_artifact wBase 0 none Region.Devon rfl

/-- Claim C7: exactly one RNG state is constructed per invocation, before
the action is dispatched, from the optional seed; it is the single
randomness source handed to whichever stage runs; with a seed present it is
a pure function of the seed (the entropy source never influences any
action's behaviour), and without one it comes from the entropy source. -/
theorem single_rng_constructed_before_dispatch :
    (∀ w entropy args, runMain w entropy args =
        dispatchAction w args.action (mkRng args.rng_seed entropy)) ∧
    (∀ s entropy, mkRng (some s) entropy = seed_from_u64 s) ∧
    (∀ entropy, mkRng none entropy = from_entropy entropy) ∧
    (∀ w e1 e2 a s, runMain w e1 ⟨a, some s⟩ = runMain w e2 ⟨a, some s⟩) :=
  ⟨fun _ _ _ => rfl, fun _ _ => rfl, fun _ => rfl, fun _ _ _ _ _ => rfl⟩

/-- Claim C8: if any table row is malformed — its area-code field missing or
its count cell failing to parse as an unsigned integer — the resolver fails
with `MalformedInputRow` instead of producing initial conditions. -/
theorem malformed_row_fails
    (w : World) (region : Region) (name : String) (rows : List RawRow)
    (hname : csvFileName region = some name)
    (hfile : w.files (("model_parameters/") ++ name) = some rows)
    (r : RawRow) (hr : r ∈ rows)
    (hbad : r.msoa = none ∨ ∃ s, r.cases = some s ∧ parseUsize s = none) :
    region.to_input w = Except.error Err.MalformedInputRow := by
  rw [to_input_eq_readCsv hname w]
  simp only [readCsv, hfile]
  rw [readRows_error_of_mem rows [] r hr (parseRow_of_bad hbad)]

/-- Claim C8 witness: a table whose only row has the non-numeric count
`abc` makes the Devon resolver fail with `MalformedInputRow`. -/
theorem malformed_row_fails_witness :
    Region.Devon.to_input wBad = Except.error Err.MalformedInputRow :=
  malformed_row_fails wBad Region.Devon ("Input_Devon.csv") rowsBad rfl rfl
    ⟨some ("E02000001"), some ("abc")⟩ (by simp [rowsBad])
    (Or.inr ⟨("abc"), rfl, rfl⟩)

/-- Claim C9: an unopenable bundled table file, or a failed national
enumeration, makes the resolver fail with `SourceUnavailable`; the failure
propagates directly (no retry logic exists in the resolver). -/
theorem source_unavailable_not_retried (w : World) :
    (∀ region name, csvFileName region = some name →
      w.files (("model_parameters/") ++ name) = none →
      region.to_input w = Except.error Err.SourceUnavailable) ∧
    (w.msoas_nationally = none →
      Region.National.to_input w = Except.error Err.SourceUnavailable) := by
  constructor
  · intro region name hname hfile
    rw [to_input_eq_readCsv hname w]
    simp [readCsv, hfile]
  · intro h
    simp [Region.to_input, h]

/-- Claim C9 witness: in a world with no table files and a failing national
enumeration, both the Devon resolver and the national resolver fail with
`SourceUnavailable`. -/
theorem source_unavailable_not_retried_witness :
    Region.Devon.to_input wBase = Except.error Err.SourceUnavailable ∧
    Region.National.to_input wBase = Except.error Err.SourceUnavailable :=
  ⟨(source_unavailable_not_retried wBase).1 Region.Devon ("Input_Devon.csv") rfl rfl,
   (source_unavailable_not_retried wBase).2 rfl⟩

/-- Claim C10: `Init` is atomic with respect to its output: either some step
failed and the invocation wrote nothing at all, or input resolution, the
external synthesis and the write all succeeded and exactly the one
population artifact was written. -/
theorem init_atomic_output
    (w : World) (entropy : Nat) (seed : Option Nat) (region : Region) :
    (∃ err, runMain w entropy ⟨Action.Init region, seed⟩ = (Except.error err, [])) ∨
    (∃ input population, region.to_input w = Except.ok input ∧
      w.create input (mkRng seed entropy) = some population ∧
      w.writable = true ∧
      runMain w entropy ⟨Action.Init region, seed⟩ =
        (Except.ok (), [(initOutputPath region, FileData.binPop population)])) := by
  cases hin : region.to_input w with
  | error e =>
    left
    exact ⟨e, by simp [runMain, dispatchAction, hin]⟩
  | ok input =>
    cases hc : w.create input (mkRng seed entropy) with
    | none =>
      left
      exact ⟨Err.CollaboratorFailure, by simp [runMain, dispatchAction, hin, hc]⟩
    | some population =>
      cases hw : w.writable with
      | false =>
        left
        exact ⟨Err.WriteFailure, by simp [runMain, dispatchAction, hin, hc, hw]⟩
      | true =>
        right
        exact ⟨input, population, rfl, hc, rfl,
          by simp [runMain, dispatchAction, hin, hc, hw]⟩

end Ramp
